import Mathlib

/-!
Verification of the FlexGet RSS input plugin (src/flexget/plugins/input/rss.py).

The development shallowly embeds `InputRSS.on_task_input` and its helpers
(`build_config` defaults, `add_enclosure_info`, the per-entry `add_entry`
closure, bozo-exception classification, the dedup scan and the persistence of
etag / last-modified / last-entry watermark) as executable Lean functions.

External collaborators (the HTTP layer `task.requests`, `feedparser.parse`,
`task.simple_persistence`) are modelled as inputs: the run function receives
the HTTP response (or its absence), the raw body, and the parsed feed that
feedparser would produce for that body, plus the persisted cache state, and
returns the run outcome together with the cache state as persisted afterwards.

Python-semantics notes, mirrored deliberately:
- feed entries are string-keyed mappings; attribute access on a missing key
  (feedparser FeedParserDict) raises AttributeError, `d[k]` raises KeyError;
- `str + nonstring` raises TypeError;
- `list.remove(x)` raises ValueError when `x` is not an element;
- truthiness: the empty string is falsy.
Unhandled exceptions are modelled by `RunError.raised`, `PluginError` by
`RunError.pluginError`.
-/

deriving instance DecidableEq for Except

/-- A value stored under a field name of a parsed feed entry: either a string
or a non-string value (tagged, with its Python truthiness). Mirrors that
feedparser entries may carry non-string values (lists, dates, ...). -/
inductive FieldVal
  | str (s : String)
  | nonStr (tag : String) (truthy : Bool)
deriving DecidableEq

/-- Python truthiness of a field value (empty string is falsy). -/
def pyTruthy : FieldVal → Bool
  | .str s => s != ""
  | .nonStr _ b => b

/-- Whether a field value is a string. -/
def FieldVal.isStr : FieldVal → Bool
  | .str _ => true
  | .nonStr _ _ => false

/-- One RSS enclosure as seen by feedparser: `href`, `length`, `type` keys,
each possibly absent (`none` models the key being absent). -/
structure Enclosure where
  href : Option String
  length : Option String
  etype : Option String
deriving DecidableEq

/-- One parsed feed entry: an association list of field name to value
(first binding wins, mirroring a dict without duplicate keys), plus the
`enclosures` list and the `published_parsed` timestamp (modelled as an
integer timestamp; `none` models the key being absent). -/
structure RawEntry where
  fields : List (String × FieldVal)
  enclosures : List Enclosure
  publishedParsed : Option Int
deriving DecidableEq

/-- Models `entry.get(k)` / `k in entry`: lookup of a field by name. -/
def RawEntry.getField (e : RawEntry) (k : String) : Option FieldVal :=
  (e.fields.find? (fun kv => kv.1 == k)).map (fun kv => kv.2)

/-- Models `entry[k] = v`: dict assignment, replacing an existing binding or
appending a new one. -/
def RawEntry.setField (e : RawEntry) (k : String) (v : FieldVal) : RawEntry :=
  if e.fields.any (fun kv => kv.1 == k) then
    { e with fields := e.fields.map (fun kv => if kv.1 == k then (k, v) else kv) }
  else
    { e with fields := e.fields ++ [(k, v)] }

/-- The `link` configuration after `build_config`: the string `auto`, a
single field name, or a list of field names. -/
inductive LinkConfig
  | auto
  | field (f : String)
  | fieldList (fs : List String)
deriving DecidableEq

/-- The plugin configuration after `build_config` applied its defaults
(`link` defaults to auto, `group_links` and `all_entries` to false) and
normalised `other_fields` into a list of single-pair mappings.
`none` on an optional field models the key being absent from the config. -/
structure RssConfig where
  url : String
  username : Option String := none
  password : Option String := none
  titleField : Option String := none
  link : LinkConfig := .auto
  otherFields : Option (List (String × String)) := none
  silent : Bool := false
  ascii : Bool := false
  filenameCfg : Option Bool := none
  groupLinks : Bool := false
  allEntries : Bool := false
deriving DecidableEq

/-- Models `config.get('filename', True)`. -/
def effFilename (cfg : RssConfig) : Bool := cfg.filenameCfg.getD true

/-- Models `config.get('title', 'title')`: the effective title field name. -/
def entryTf (cfg : RssConfig) : String := cfg.titleField.getD "title"

/-- The persisted per-source cache state: the `<hash>_etag`,
`<hash>_modified` and `<hash>_last_entry` keys of `task.simple_persistence`. -/
structure Persist where
  etag : Option String
  modified : Option String
  lastEntry : Option String
deriving DecidableEq

/-- Task-level options read by the run: `task.config_modified` and the
`--no-cache` option. -/
structure TaskOpts where
  configModified : Bool
  nocache : Bool
deriving DecidableEq

/-- How a run can fail: `PluginError` raised deliberately, or an unhandled
Python exception (TypeError / KeyError / ValueError / AttributeError, or a
bozo exception re-raised for the internet decorator). -/
inductive RunError
  | pluginError (msg : String)
  | raised (msg : String)
deriving DecidableEq

/-- A produced FlexGet `Entry`. Structured fields the plugin writes are
record fields; fields projected by the `add_entry` helper (guid, author,
description, torrent_info_hash and `other_fields` targets) land in `extra`.
(`other_fields` mappings targeting one of the structured names are outside
the model; no claim configures such a mapping.) -/
structure OutputItem where
  title : String := ""
  url : Option FieldVal := none
  urls : Option (List FieldVal) := none
  size : Option Int := none
  etype : Option String := none
  filename : Option String := none
  extra : List (String × String) := []
  rssPubdate : Option Int := none
  basicAuthUsername : Option String := none
  basicAuthPassword : Option String := none
deriving DecidableEq

/-- The shape of what `on_task_input` gives back to its caller: a list of
entries, a bare `return` (None), or a raised error. -/
inductive RunResult
  | items (out : List OutputItem)
  | noneRet
  | error (e : RunError)
deriving DecidableEq

/-- The observable outcome of one run: the returned value, the persisted
cache state afterwards, the `task.no_entries_ok` flag, how many times the
diagnostics dump (`process_invalid_content`) ran, and the ignored tally. -/
structure Outcome where
  result : RunResult
  persist : Persist
  noEntriesOk : Bool
  dumps : Nat
  ignored : Nat
deriving DecidableEq

/-- The bozo exception classes distinguished by the plugin. -/
inductive BozoExc
  | nonXMLContentType
  | characterEncodingOverride
  | unicodeEncodeError
  | saxParseException (msg : String)
  | badStatusLine
  | ioError
  | other (name : String)
deriving DecidableEq

/-- The result of `feedparser.parse`: the `bozo` bit (`none` models the key
being absent, FlexGet ticket 721), the `bozo_exception` when set, and the
entry list. -/
structure ParsedFeed where
  bozoException : Option BozoExc
  bozoBit : Option Bool
  entries : List RawEntry
deriving DecidableEq

/-- An HTTP response from `task.requests.get`. -/
structure HttpResp where
  status : Nat
  body : String
  etagHeader : Option String
  lastModifiedHeader : Option String
  wwwAuthenticate : Option String
deriving DecidableEq

/-- The external world of one run: the HTTP response for a network URL
(`none` models a RequestException), the bytes of a local file for a file
path, whether `feedparser.parse` raises LookupError, and the feed that
feedparser produces for the fetched content. -/
structure FetchWorld where
  httpResp : Option HttpResp
  fileBody : String
  parseLookupError : Bool
  parsed : ParsedFeed
deriving DecidableEq

/-- Models `str.startswith`, evaluated on character lists. -/
def strStartsWith (s pre : String) : Bool := pre.data.isPrefixOf s.data

/-- Models `config['url'].startswith(('http', 'https', 'ftp', 'file'))`. -/
def isNetworkUrl (u : String) : Bool :=
  strStartsWith u "http" || strStartsWith u "https" ||
    strStartsWith u "ftp" || strStartsWith u "file"

/-- Models the zero-width-space replace of line 346: removing every U+200B
(single-character replace equals filtering the character out). -/
def stripZwsp (s : String) : String :=
  String.mk (s.data.filter (fun c => c != Char.ofNat 0x200B))

/-- Models `title.encode('ascii', 'ignore')`: dropping every non-ASCII character. -/
def asciiIgnore (s : String) : String :=
  String.mk (s.data.filter (fun c => c.toNat ≤ 127))

/-- Digits-only accumulator for `pyInt`. -/
def pyIntCore : List Char → Option Nat
  | [] => none
  | cs =>
    cs.foldl
      (fun acc c =>
        match acc with
        | none => none
        | some n => if c.isDigit then some (n * 10 + (c.toNat - 48)) else none)
      (some 0)

/-- Python `int(s)` on a string: optional surrounding spaces, optional sign,
decimal digits; anything else raises ValueError (modelled as `none`). -/
def pyInt (s : String) : Option Int :=
  let cs := ((s.data.dropWhile (fun c => c = ' ')).reverse.dropWhile (fun c => c = ' ')).reverse
  match cs with
  | '-' :: rest => (pyIntCore rest).map (fun n => -(n : Int))
  | '+' :: rest => (pyIntCore rest).map (fun n => (n : Int))
  | _ => (pyIntCore cs).map (fun n => (n : Int))

/-- The characters after the first `://`, when present. -/
def afterSchemeSep : List Char → Option (List Char)
  | [] => none
  | ':' :: '/' :: '/' :: rest => some rest
  | _ :: rest => afterSchemeSep rest

/-- Models `urlparse.urlsplit(url).path`, restricted to the common URL shapes the
plugin meets (scheme://host/path with optional query and fragment); the
resulting value feeds only the derived `filename`, which no claim inspects. -/
def urlsplitPath (url : String) : String :=
  let noFrag := url.data.takeWhile (fun c => c != '#')
  let noQuery := noFrag.takeWhile (fun c => c != '?')
  match afterSchemeSep noQuery with
  | some rest => String.mk (rest.dropWhile (fun c => c != '/'))
  | none => String.mk noQuery

/-- Models `posixpath.basename`: the component after the last slash. -/
def posixBasename (p : String) : String :=
  String.mk ((p.data.reverse.takeWhile (fun c => c != '/')).reverse)

/-- Modelled from the spec: `flexget.utils.tools.decode_html` is repository
code outside src/ (an HTML entity decoder applied to projected field values).
No claim depends on its value, so it is modelled as the identity on strings. -/
def decodeHtml (s : String) : String := s

/-- Models `InputRSS.add_enclosure_info`: store an enclosure href as `url`, parse
`length` into `size` (0 on parse failure), copy `type`, and derive `filename`
from the URL basename when size is truthy, or when there are multiple
enclosures and the basename is nonempty, provided filename output is on. -/
def add_enclosure_info (ea : OutputItem) (enc : Enclosure) (filenameOn : Bool)
    (multiple : Bool) : OutputItem :=
  let ea1 := { ea with url := enc.href.map FieldVal.str }
  let ea2 :=
    match enc.length with
    | some l => { ea1 with size := some ((pyInt l).getD 0) }
    | none => ea1
  let ea3 :=
    match enc.etype with
    | some ty => { ea2 with etype := some ty }
    | none => ea2
  let urlStr :=
    match ea3.url with
    | some (.str u) => u
    | _ => ""
  let basename := posixBasename (urlsplitPath urlStr)
  let sizeTruthy :=
    match ea3.size with
    | some n => n != 0
    | none => false
  if (sizeTruthy || (multiple && basename != "")) && filenameOn then
    { ea3 with filename := some basename }
  else ea3

/-- The error `config['other_fields'].remove(rss_field)` raises on a
present-but-non-string field: KeyError when the config has no
`other_fields` key, otherwise ValueError because the list holds the
single-pair dicts `build_config` produced, never plain strings. -/
def fieldRemoveError (cfg : RssConfig) : RunError :=
  match cfg.otherFields with
  | none => .raised "KeyError: other_fields"
  | some _ => .raised "ValueError: list.remove(x): x not in list"

/-- The fields-to-grab mapping built per entry: the fixed four plus the
configured `other_fields` mappings (`dict.update`). -/
def updateAssoc (l : List (String × String)) (kv : String × String) :
    List (String × String) :=
  if l.any (fun p => p.1 == kv.1) then
    l.map (fun p => if p.1 == kv.1 then (kv.1, kv.2) else p)
  else l ++ [kv]

/-- The `fields` dict of the entry loop: guid, author, description,
infohash (to torrent_info_hash), updated with the `other_fields` mappings. -/
def fieldsList (cfg : RssConfig) : List (String × String) :=
  (cfg.otherFields.getD []).foldl updateAssoc
    [("guid", "guid"), ("author", "author"), ("description", "description"),
     ("infohash", "torrent_info_hash")]

/-- Models `ea[k] = v` on the projected output fields. -/
def setExtra (ea : OutputItem) (k v : String) : OutputItem :=
  if ea.extra.any (fun kv => kv.1 == k) then
    { ea with extra := ea.extra.map (fun kv => if kv.1 == k then (k, v) else kv) }
  else
    { ea with extra := ea.extra ++ [(k, v)] }

/-- The field-projection loop of `add_entry`: for each mapping, a present
non-string source field makes `config['other_fields'].remove` raise, a blank
string is skipped, and a nonempty string is decoded and stored. -/
def addEntryFields (cfg : RssConfig) (e : RawEntry) :
    OutputItem → List (String × String) → Except RunError OutputItem
  | ea, [] => .ok ea
  | ea, (rf, ff) :: rest =>
    match e.getField rf with
    | none => addEntryFields cfg e ea rest
    | some (.nonStr _ _) => .error (fieldRemoveError cfg)
    | some (.str s) =>
      if s = "" then addEntryFields cfg e ea rest
      else addEntryFields cfg e (setExtra ea ff (decodeHtml s)) rest

/-- The `add_entry` closure: set the (cleaned) title, project the configured
fields, attach `rss_pubdate` when `published_parsed` is present, and carry the
basic-auth credentials when both username and password are configured. -/
def addEntry (cfg : RssConfig) (flds : List (String × String)) (e : RawEntry)
    (t : String) (ea : OutputItem) : Except RunError OutputItem :=
  match addEntryFields cfg e { ea with title := t } flds with
  | .error err => .error err
  | .ok ea1 =>
    let ea2 :=
      match e.publishedParsed with
      | some ts => { ea1 with rssPubdate := some ts }
      | none => ea1
    let ea3 :=
      match cfg.username, cfg.password with
      | some u, some pw =>
        { ea2 with basicAuthUsername := some u, basicAuthPassword := some pw }
      | _, _ => ea2
    .ok ea3

/-- Models `entry.get('guid', '')` followed by string concatenation: absent means
the empty string, and a non-string guid makes `title + guid` raise TypeError. -/
def guidOrEmpty (e : RawEntry) : Except RunError String :=
  match e.getField "guid" with
  | none => .ok ""
  | some (.str g) => .ok g
  | some (.nonStr _ _) => .error (.raised "TypeError: cannot concatenate str and non-str")

/-- The multi-enclosure fan-out: one item per enclosure that has an `href`
key (enclosures without the key are skipped), in order; the parent item is
not created. -/
def fanOut (cfg : RssConfig) (flds : List (String × String)) (e : RawEntry)
    (t : String) : List Enclosure → Except RunError (List OutputItem)
  | [] => .ok []
  | enc :: rest =>
    match enc.href with
    | none => fanOut cfg flds e t rest
    | some _ =>
      match addEntry cfg flds e t (add_enclosure_info {} enc (effFilename cfg) true) with
      | .error err => .error err
      | .ok ee =>
        match fanOut cfg flds e t rest with
        | .error err => .error err
        | .ok rest2 => .ok (ee :: rest2)

/-- Auto link mode fallback: the first truthy value among the `link` then
`guid` fields. -/
def firstTruthy (e : RawEntry) : List String → Option FieldVal
  | [] => none
  | f :: fs =>
    match e.getField f with
    | some v => if pyTruthy v then some v else firstTruthy e fs
    | none => firstTruthy e fs

/-- Auto link mode when no single enclosure provides the url. -/
def autoFallback (e : RawEntry) (base : OutputItem) : OutputItem :=
  match firstTruthy e ["link", "guid"] with
  | some v => { base with url := some v }
  | none => base

/-- The list-of-fields link mode: the first truthy field becomes `url`, and
`urls` accumulates the ordered, de-duplicated truthy values. -/
def listLinkResolve (e : RawEntry) : OutputItem → List String → OutputItem
  | acc, [] => acc
  | acc, f :: fs =>
    match e.getField f with
    | some v =>
      if pyTruthy v then
        let acc1 := if acc.url.isNone then { acc with url := some v } else acc
        let cur := acc1.urls.getD []
        let acc2 :=
          if v ∈ cur then { acc1 with urls := some cur }
          else { acc1 with urls := some (cur ++ [v]) }
        listLinkResolve e acc2 fs
      else listLinkResolve e acc fs
    | none => listLinkResolve e acc fs

/-- The enclosure-href comprehension of the `group_links` branch, evaluated
against the pre-extend `urls` list: the filter reads `enc.get('href')`, the
body reads `enc.href`, so an href-less enclosure passes the filter (None is
not among string urls) and then raises AttributeError. -/
def encHrefAdds (base : List FieldVal) : List Enclosure → Except RunError (List FieldVal)
  | [] => .ok []
  | enc :: rest =>
    let memb : Bool :=
      match enc.href with
      | some h => decide (FieldVal.str h ∈ base)
      | none => false
    if memb then encHrefAdds base rest
    else
      match enc.href with
      | some h =>
        match encHrefAdds base rest with
        | .error err => .error err
        | .ok l => .ok (FieldVal.str h :: l)
      | none => .error (.raised "AttributeError: href")

/-- Models the `e.setdefault('urls', [e['url']]).extend(...)` of the `group_links`
branch: reading `e['url']` raises KeyError when no url was resolved. -/
def groupStep (cfg : RssConfig) (e : RawEntry) (ea : OutputItem) :
    Except RunError OutputItem :=
  if cfg.groupLinks then
    match ea.url with
    | none => .error (.raised "KeyError: url")
    | some u =>
      let base := ea.urls.getD [u]
      match encHrefAdds base e.enclosures with
      | .error err => .error err
      | .ok adds => .ok { ea with urls := some (base ++ adds) }
  else .ok ea

/-- Lines 410-431, the url resolution of the single-item branch: auto mode
prefers a lone enclosure with a truthy href, then the `link` and `guid`
fields; a named field is used directly; a field list accumulates `urls`. -/
def resolveUrl (cfg : RssConfig) (e : RawEntry) : OutputItem :=
  match cfg.link with
  | .auto =>
    match e.enclosures with
    | [enc] =>
      match enc.href with
      | some h =>
        if h ≠ "" then add_enclosure_info {} enc (effFilename cfg) false
        else autoFallback e {}
      | none => autoFallback e {}
    | _ => autoFallback e {}
  | .field f =>
    match e.getField f with
    | some v => if pyTruthy v then { url := some v } else {}
    | none => {}
  | .fieldList fs => listLinkResolve e {} fs

/-- The single-item branch (zero or one enclosure, or `group_links` true):
resolve the url by the configured strategy, extend urls with the enclosure
hrefs under `group_links`, drop the item when no truthy url was resolved
(`.ok none`), otherwise run `add_entry`. -/
def singleItem (cfg : RssConfig) (flds : List (String × String)) (e : RawEntry)
    (t : String) : Except RunError (Option OutputItem) :=
  match groupStep cfg e (resolveUrl cfg e) with
  | .error err => .error err
  | .ok eg =>
    match eg.url with
    | none => .ok none
    | some u =>
      if pyTruthy u then
        match addEntry cfg flds e t eg with
        | .error err => .error err
        | .ok it => .ok (some it)
      else .ok none

/-- What one iteration of the entry loop does: skip (no truthy title, the
ignored tally grows), break out of the loop (dedup watermark hit), crash
(an unhandled exception propagates), or produce zero or more items.
Each non-skip step carries the entry as mutated by the iteration (its
`title` key is overwritten before the dedup check and again after cleanup). -/
inductive EntryStep
  | skip
  | brk (e2 : RawEntry)
  | iErr (e2 : RawEntry) (err : RunError)
  | out (e2 : RawEntry) (its : List OutputItem) (ign : Nat)
deriving DecidableEq

/-- Lines 341-346: ascii cleanup (when configured) then zero-width-space
stripping of the title. -/
def cleanTitle (cfg : RssConfig) (t : String) : String :=
  stripZwsp (if cfg.ascii then asciiIgnore t else t)

/-- The entry as mutated by the cleanup lines 341-346: its title key is
overwritten with the cleaned title. -/
def cleanedEntry (cfg : RssConfig) (e1 : RawEntry) (t : String) : RawEntry :=
  e1.setField "title" (.str (cleanTitle cfg t))

/-- One iteration of the entry loop, the part after the dedup check (lines
341-443): ascii cleanup and zero-width-space stripping of the title, then
the enclosure fan-out or the single-item branch. -/
def resolveEntry (cfg : RssConfig) (flds : List (String × String))
    (e1 : RawEntry) (t : String) : EntryStep :=
  if decide (1 < (cleanedEntry cfg e1 t).enclosures.length) && !cfg.groupLinks then
    match fanOut cfg flds (cleanedEntry cfg e1 t) (cleanTitle cfg t)
        (cleanedEntry cfg e1 t).enclosures with
    | .ok its => .out (cleanedEntry cfg e1 t) its 0
    | .error err => .iErr (cleanedEntry cfg e1 t) err
  else
    match singleItem cfg flds (cleanedEntry cfg e1 t) (cleanTitle cfg t) with
    | .ok (some it) => .out (cleanedEntry cfg e1 t) [it] 0
    | .ok none => .out (cleanedEntry cfg e1 t) [] 1
    | .error err => .iErr (cleanedEntry cfg e1 t) err

/-- One iteration, the part before `resolveEntry`: the title check, the
title-field assignment, and the dedup fingerprint comparison against the
stored watermark (raw title, before cleanup). -/
def processEntry (cfg : RssConfig) (flds : List (String × String))
    (lastId : Option String) (e : RawEntry) : EntryStep :=
  match e.getField (entryTf cfg) with
  | none => .skip
  | some tv =>
    if pyTruthy tv then
      match tv with
      | .nonStr tg tr =>
        .iErr (e.setField "title" (.nonStr tg tr))
          (.raised "TypeError: cannot concatenate str and non-str")
      | .str t =>
        match guidOrEmpty (e.setField "title" (.str t)) with
        | .error err => .iErr (e.setField "title" (.str t)) err
        | .ok g =>
          if lastId = some (t ++ g) then .brk (e.setField "title" (.str t))
          else resolveEntry cfg flds (e.setField "title" (.str t)) t
    else .skip

/-- How the entry loop ended: ran through, broke at the watermark, or
crashed with an unhandled exception. -/
inductive LoopEnd
  | done
  | broke
  | crashed (err : RunError)
deriving DecidableEq

/-- Whether the loop crashed. -/
def LoopEnd.isCrash : LoopEnd → Bool
  | .crashed _ => true
  | _ => false

/-- Whether the loop broke at the watermark (sets `task.no_entries_ok`). -/
def LoopEnd.isBroke : LoopEnd → Bool
  | .broke => true
  | _ => false

/-- The state after the entry loop: the entry list as mutated in place, the
accumulated items, the ignored tally, and how the loop ended. -/
structure LoopOut where
  entriesAfter : List RawEntry
  items : List OutputItem
  ignored : Nat
  ending : LoopEnd
deriving DecidableEq

/-- The entry loop over the (sorted) entry list. -/
def runLoop (cfg : RssConfig) (flds : List (String × String))
    (lastId : Option String) : List RawEntry → LoopOut
  | [] => ⟨[], [], 0, .done⟩
  | e :: rest =>
    match processEntry cfg flds lastId e with
    | .skip =>
      let r := runLoop cfg flds lastId rest
      ⟨e :: r.entriesAfter, r.items, r.ignored + 1, r.ending⟩
    | .brk e2 => ⟨e2 :: rest, [], 0, .broke⟩
    | .iErr e2 err => ⟨e2 :: rest, [], 0, .crashed err⟩
    | .out e2 its ign =>
      let r := runLoop cfg flds lastId rest
      ⟨e2 :: r.entriesAfter, its ++ r.items, ign + r.ignored, r.ending⟩

/-- Models `rss.entries[0].title + rss.entries[0].get('guid', '')`, the watermark
written at line 448: attribute access on a missing title raises
AttributeError; a non-string title or guid makes the concatenation raise. -/
def watermark (e : RawEntry) : Except RunError String :=
  match e.getField "title" with
  | none => .error (.raised "AttributeError: title")
  | some (.str t) =>
    match e.getField "guid" with
    | none => .ok t
    | some (.str g) => .ok (t ++ g)
    | some (.nonStr _ _) => .error (.raised "TypeError: cannot concatenate str and non-str")
  | some (.nonStr _ _) => .error (.raised "TypeError: cannot concatenate non-str and str")

/-- Sort key for the descending re-sort (only applied once every entry is
known to carry the key). -/
def pubKey (e : RawEntry) : Int := e.publishedParsed.getD 0

/-- Stable descending insertion: an entry goes in front of the first entry
whose key is not larger, so equal keys keep their original order, matching
Python's stable `list.sort(reverse=True)`. -/
def insertDesc (x : RawEntry) : List RawEntry → List RawEntry
  | [] => [x]
  | y :: ys => if pubKey y ≤ pubKey x then x :: y :: ys else y :: insertDesc x ys

/-- Stable sort, descending by publish time. -/
def sortDesc (l : List RawEntry) : List RawEntry := l.foldr insertDesc []

/-- Lines 308-312: when the first entry has a truthy `published_parsed` and
is older than the last entry, the list is sorted descending in place; the
direct `['published_parsed']` accesses raise KeyError on an entry missing
the key. -/
def sortStage (entries : List RawEntry) : Except RunError (List RawEntry) :=
  match entries with
  | [] => .ok []
  | e0 :: rest =>
    match e0.publishedParsed with
    | none => .ok (e0 :: rest)
    | some t0 =>
      match (List.getLastD rest e0).publishedParsed with
      | none => .error (.raised "KeyError: published_parsed")
      | some tl =>
        if t0 < tl then
          if (e0 :: rest).all (fun e => e.publishedParsed.isSome) then
            .ok (sortDesc (e0 :: rest))
          else .error (.raised "KeyError: published_parsed")
        else .ok (e0 :: rest)

/-- Lines 249-302, the bozo classification: either an early outcome (a
PluginError, a re-raised exception, or the bare `return` at line 300 when
the bozo bit is set and the fault was not marked ignorable) or the number of
diagnostics dumps performed so far, with processing continuing.
The unclassified-fault-with-entries branch logs but does not set `ignore`. -/
def bozoClassify (feed : ParsedFeed) : Bool × Option RunResult × Nat :=
  match feed.bozoException with
  | none => (false, none, 0)
  | some exc =>
    match exc with
    | .nonXMLContentType => (true, none, 0)
    | .characterEncodingOverride => (true, none, 0)
    | .unicodeEncodeError => (!feed.entries.isEmpty, none, 0)
    | .saxParseException _ =>
      if feed.entries.isEmpty then
        (false, some (.error (.pluginError "Received invalid RSS content")), 1)
      else (true, none, 0)
    | .badStatusLine => (false, some (.error (.raised "BadStatusLine")), 0)
    | .ioError => (false, some (.error (.raised "IOError")), 0)
    | .other n =>
      if feed.entries.isEmpty then
        (false, some (.error (.pluginError ("Unhandled bozo_exception " ++ n))), 1)
      else (false, none, 0)

/-- The bozo-check at lines 296-302, applied after the classification: with
the bozo bit present and set and the fault not marked ignorable, the run
logs and returns None. -/
def bozoStage (feed : ParsedFeed) : Sum (RunResult × Nat) Nat :=
  match (bozoClassify feed).2.1 with
  | some r => .inl (r, (bozoClassify feed).2.2)
  | none =>
    match feed.bozoBit with
    | some b =>
      if b && !(bozoClassify feed).1 then .inl (.noneRet, (bozoClassify feed).2.2)
      else .inr (bozoClassify feed).2.2
    | none => .inr (bozoClassify feed).2.2

/-- Lines 227-236: on a 200 response, the etag and last-modified headers are
written to persistence immediately (before parsing), unless the config sets
`all_entries`; blank header values are falsy and skipped. -/
def updateCacheHeaders (cfg : RssConfig) (p : Persist) (r : HttpResp) : Persist :=
  if cfg.allEntries then p
  else
    let p1 :=
      match r.etagHeader with
      | some t => if t = "" then p else { p with etag := some t }
      | none => p
    match r.lastModifiedHeader with
    | some m => if m = "" then p1 else { p1 with modified := some m }
    | none => p1

/-- Lines 196-239: fetching. A network URL either fails (RequestException
becomes a PluginError), short-circuits on 304 with `no_entries_ok` set and
the cache state untouched, fails on the other non-200 statuses, or yields
the body after staging the caching headers; a local path yields the file
bytes. The conditional request headers built from the cache state only
influence the collaborator and have no further observable effect here. -/
def fetchStage (cfg : RssConfig) (p : Persist) (w : FetchWorld) :
    Sum Outcome (String × Persist) :=
  if isNetworkUrl cfg.url then
    match w.httpResp with
    | none => .inl ⟨.error (.pluginError "Unable to download the RSS"), p, false, 0, 0⟩
    | some r =>
      if r.status = 304 then .inl ⟨.items [], p, true, 0, 0⟩
      else if r.status = 401 then
        match r.wwwAuthenticate with
        | none => .inl ⟨.error (.raised "KeyError: www-authenticate"), p, false, 0, 0⟩
        | some _ => .inl ⟨.error (.pluginError "Authentication needed"), p, false, 0, 0⟩
      else if r.status = 404 then
        .inl ⟨.error (.pluginError "RSS Feed not found"), p, false, 0, 0⟩
      else if r.status = 500 then
        .inl ⟨.error (.pluginError "Internal server exception"), p, false, 0, 0⟩
      else if r.status ≠ 200 then
        .inl ⟨.error (.pluginError "HTTP error"), p, false, 0, 0⟩
      else .inr (r.body, updateCacheHeaders cfg p r)
  else .inr (w.fileBody, p)

/-- Lines 445-454: after the loop, when the feed yielded entries, the
watermark of the first entry (as mutated by the loop) is persisted; then the
item list is returned. A loop crash propagates instead. -/
def loopFinish (p1 : Persist) (dumps : Nat) (lp : LoopOut) : Outcome :=
  match lp.ending with
  | .crashed err => ⟨.error err, p1, false, dumps, lp.ignored⟩
  | ending =>
    match lp.entriesAfter with
    | [] => ⟨.items lp.items, p1, ending.isBroke, dumps, lp.ignored⟩
    | e0 :: _ =>
      match watermark e0 with
      | .error err => ⟨.error err, p1, ending.isBroke, dumps, lp.ignored⟩
      | .ok s => ⟨.items lp.items, { p1 with lastEntry := some s }, ending.isBroke, dumps, lp.ignored⟩

/-- The entry loop followed by the watermark persistence. -/
def loopStage (cfg : RssConfig) (p1 : Persist) (lastId : Option String)
    (es : List RawEntry) (dumps : Nat) : Outcome :=
  loopFinish p1 dumps (runLoop cfg (fieldsList cfg) lastId es)

/-- Lines 306-313: incremental mode is off when `all_entries` is configured,
the config changed, or caching was disabled; otherwise the entries are
re-sorted when needed and the stored watermark is loaded (the loop compares
against the empty string when incremental mode is off). -/
def entryStage (cfg : RssConfig) (opts : TaskOpts) (p1 : Persist)
    (feed : ParsedFeed) (dumps : Nat) : Outcome :=
  if cfg.allEntries || opts.configModified || opts.nocache then
    loopStage cfg p1 (some "") feed.entries dumps
  else
    match sortStage feed.entries with
    | .error err => ⟨.error err, p1, false, dumps, 0⟩
    | .ok es => loopStage cfg p1 p1.lastEntry es dumps

/-- Lines 241-302: the empty-body check (bare `return`), the LookupError
from `feedparser.parse`, then the bozo classification. -/
def parseStage (cfg : RssConfig) (opts : TaskOpts) (p1 : Persist)
    (feed : ParsedFeed) (dumps0 : Nat) : Outcome :=
  match bozoStage feed with
  | .inl rd => ⟨rd.1, p1, false, dumps0 + rd.2, 0⟩
  | .inr d => entryStage cfg opts p1 feed (dumps0 + d)

/-- The body-dependent part of the run, after fetching produced `content`. -/
def contentStage (cfg : RssConfig) (opts : TaskOpts) (p1 : Persist)
    (content : String) (w : FetchWorld) : Outcome :=
  if content = "" then ⟨.noneRet, p1, false, 0, 0⟩
  else if w.parseLookupError then
    ⟨.error (.pluginError "Unable to parse the RSS"), p1, false, 0, 0⟩
  else parseStage cfg opts p1 w.parsed 0

/-- Models `InputRSS.on_task_input`, end to end. -/
def runRss (cfg : RssConfig) (opts : TaskOpts) (p : Persist) (w : FetchWorld) :
    Outcome :=
  match fetchStage cfg p w with
  | .inl o => o
  | .inr cp => contentStage cfg opts cp.2 cp.1 w

/-! ## Concrete run inputs for the claims -/

/-- A string consisting of one zero width space (U+200B). -/
def zwspStr : String := String.mk [Char.ofNat 0x200B]

/-- Default task options: config unchanged, caching not disabled. -/
def plainOpts : TaskOpts := ⟨false, false⟩

/-- Empty persisted cache state. -/
def emptyPersist : Persist := ⟨none, none, none⟩

def c1Cfg : RssConfig := { url := "http://x/feed" }

/-- A 200 response carrying an etag, whose body parses with an unclassified
bozo exception and zero entries, so the run aborts during classification. -/
def c1World : FetchWorld :=
  ⟨some ⟨200, "not xml", some "E1", none, none⟩, "", false,
    ⟨some (.other "Exc"), some true, []⟩⟩

/-- Claim C1 counterexample: the claim says no cache field is persisted on a
run that aborts during parsing, and that CacheState is only mutated after a
successful fetch AND parse. On a 200 response with an etag whose body then
fails classification (unclassified bozo fault, zero entries), the run aborts
with a PluginError, yet the etag has already been persisted — the write at
lines 227-236 sits between fetch and parse. -/
theorem C1_counterexample :
    emptyPersist.etag = none ∧
    (runRss c1Cfg plainOpts emptyPersist c1World).result =
      RunResult.error (RunError.pluginError "Unhandled bozo_exception Exc") ∧
    (runRss c1Cfg plainOpts emptyPersist c1World).persist.etag = some "E1" := by
  decide

def c2Cfg : RssConfig := { url := "feed.xml" }

/-- One entry whose title is clean (no zero width space). -/
def c2EntryClean : RawEntry :=
  ⟨[("title", .str "Ab"), ("link", .str "http://l")], [], none⟩

def c2WorldClean : FetchWorld :=
  ⟨none, "data", false, ⟨none, some false, [c2EntryClean]⟩⟩

/-- One entry whose title contains a zero width space between A and b. -/
def c2EntryZwsp : RawEntry :=
  ⟨[("title", .str ("A" ++ zwspStr ++ "b")), ("link", .str "http://l")], [], none⟩

def c2WorldZwsp : FetchWorld :=
  ⟨none, "data", false, ⟨none, some false, [c2EntryZwsp]⟩⟩

/-- The item both runs on the zero-width-space feed emit. -/
def c2Item : OutputItem :=
  { title := "Ab", url := some (.str "http://l") }

/-- Claim C2 evaluation: with a clean title the second run over the unchanged
feed emits zero items (the watermark matches), but when the title contains a
zero width space the first run persists the cleaned fingerprint "Ab" while
the second run compares the raw title, finds no match, and re-emits the very
same item — duplicates, against the claim. -/
theorem C2_code_eval :
    ((runRss c2Cfg plainOpts
        (runRss c2Cfg plainOpts emptyPersist c2WorldClean).persist
        c2WorldClean).result = RunResult.items []) ∧
    ((runRss c2Cfg plainOpts emptyPersist c2WorldZwsp).result =
      RunResult.items [c2Item]) ∧
    ((runRss c2Cfg plainOpts emptyPersist c2WorldZwsp).persist.lastEntry =
      some "Ab") ∧
    ((runRss c2Cfg plainOpts
        (runRss c2Cfg plainOpts emptyPersist c2WorldZwsp).persist
        c2WorldZwsp).result = RunResult.items [c2Item]) := by
  decide

def c3Cfg : RssConfig := { url := "feed.xml" }

/-- An entry with two enclosures, the second with a present-but-empty href. -/
def c3EntryEnc : RawEntry :=
  ⟨[("title", .str "T")],
    [⟨some "http://a", none, none⟩, ⟨some "", none, none⟩], none⟩

/-- An entry whose title is a single zero width space (truthy raw, empty
after cleanup). -/
def c3EntryZwsp : RawEntry :=
  ⟨[("title", .str zwspStr), ("link", .str "http://l2")], [], none⟩

def c3World : FetchWorld :=
  ⟨none, "data", false, ⟨none, some false, [c3EntryEnc, c3EntryZwsp]⟩⟩

def c3ItemA : OutputItem := { title := "T", url := some (.str "http://a") }

def c3ItemEmptyUrl : OutputItem := { title := "T", url := some (.str "") }

def c3ItemEmptyTitle : OutputItem := { title := "", url := some (.str "http://l2") }

/-- Claim C3 counterexample: the claim says every emitted item has a
non-empty title and a non-empty url. The fan-out branch only checks that the
`href` key is present (line 397), so an enclosure with an empty href emits
an item whose url is the empty string; and a title consisting only of a zero
width space passes the truthiness check raw but is emptied by cleanup, so an
item with an empty title is emitted. -/
theorem C3_counterexample :
    (runRss c3Cfg plainOpts emptyPersist c3World).result =
      RunResult.items [c3ItemA, c3ItemEmptyUrl, c3ItemEmptyTitle] ∧
    c3ItemEmptyUrl.url = some (.str "") ∧
    c3ItemEmptyTitle.title = "" := by
  decide

def c4Cfg : RssConfig := { url := "feed.xml" }

def c4Entry : RawEntry :=
  ⟨[("title", .str "T"), ("link", .str "http://l")], [], none⟩

/-- The feed parses with an unclassified bozo exception yet one entry. -/
def c4WorldOther : FetchWorld :=
  ⟨none, "data", false, ⟨some (.other "SomeError"), some true, [c4Entry]⟩⟩

/-- The same feed, but the fault is a SAX parse exception. -/
def c4WorldSax : FetchWorld :=
  ⟨none, "data", false, ⟨some (.saxParseException "bad"), some true, [c4Entry]⟩⟩

def c4Item : OutputItem := { title := "T", url := some (.str "http://l") }

/-- Claim C4 evaluation: on an unclassified bozo fault with one entry the
run logs but never marks the fault ignorable, so the bozo check at lines
296-300 returns None and zero items are produced — while the identical feed
with a SAX parse fault (which does set the ignore flag) emits the entry.
The claim says the unclassified case continues and emits the entries. -/
theorem C4_code_eval :
    (runRss c4Cfg plainOpts emptyPersist c4WorldOther).result =
      RunResult.noneRet ∧
    (runRss c4Cfg plainOpts emptyPersist c4WorldOther).persist.lastEntry = none ∧
    (runRss c4Cfg plainOpts emptyPersist c4WorldSax).result =
      RunResult.items [c4Item] := by
  decide

def c6Cfg : RssConfig := { url := "feed.xml" }

/-- A single raw entry with a guid but no title key at all. -/
def c6Entry : RawEntry := ⟨[("guid", .str "g")], [], none⟩

def c6World : FetchWorld :=
  ⟨none, "data", false, ⟨none, some false, [c6Entry]⟩⟩

/-- Claim C6 counterexample: the claim says the watermark is persisted
whenever the feed yielded at least one raw entry, in particular when the
first entry lacks the title field. In fact line 448 reads
`rss.entries[0].title`, which raises AttributeError for an entry without a
title key: the run aborts and no watermark is persisted. -/
theorem C6_counterexample :
    (runRss c6Cfg plainOpts emptyPersist c6World).result =
      RunResult.error (RunError.raised "AttributeError: title") ∧
    (runRss c6Cfg plainOpts emptyPersist c6World).persist.lastEntry = none := by
  decide

def c7CfgNone : RssConfig := { url := "feed.xml" }

def c7CfgOther : RssConfig :=
  { url := "feed.xml", otherFields := some [("date", "date")] }

/-- An entry with a present non-string `author` field (and otherwise fully
resolvable: title and link present). -/
def c7Entry : RawEntry :=
  ⟨[("title", .str "T"), ("link", .str "http://l"),
    ("author", .nonStr "list" true)], [], none⟩

def c7World : FetchWorld :=
  ⟨none, "data", false, ⟨none, some false, [c7Entry]⟩⟩

/-- Claim C7 evaluation: the claim says a present-but-non-string projected
field is logged once, disabled, and the run continues. In fact
`config['other_fields'].remove(rss_field)` (line 369) raises: KeyError when
the config has no `other_fields` key, and ValueError otherwise, because
`build_config` stores single-pair dicts in that list, never strings — the
run aborts instead of continuing. -/
theorem C7_code_eval :
    (runRss c7CfgNone plainOpts emptyPersist c7World).result =
      RunResult.error (RunError.raised "KeyError: other_fields") ∧
    (runRss c7CfgOther plainOpts emptyPersist c7World).result =
      RunResult.error (RunError.raised "ValueError: list.remove(x): x not in list") := by
  decide

def c8Cfg : RssConfig := { url := "feed.xml", groupLinks := true }

/-- An entry with two enclosures (so auto mode does not take a single
enclosure url) and no link or guid field. -/
def c8Entry : RawEntry :=
  ⟨[("title", .str "T")],
    [⟨some "http://a", none, none⟩, ⟨some "http://b", none, none⟩], none⟩

def c8World : FetchWorld :=
  ⟨none, "data", false, ⟨none, some false, [c8Entry]⟩⟩

/-- Claim C8 evaluation: the claim says an entry in the single-item branch
without a resolved url is dropped and tallied, never raising — including
under `group_links` with enclosures but no resolvable link. In fact with
`group_links` the expression `e.setdefault('urls', [e['url']])` (line 435)
evaluates `e['url']` before the no-url drop check and raises KeyError. -/
theorem C8_code_eval :
    (runRss c8Cfg plainOpts emptyPersist c8World).result =
      RunResult.error (RunError.raised "KeyError: url") := by
  decide

/-! ## Stage lemmas -/

/-- Staging the caching headers never touches the stored watermark. -/
theorem updateCacheHeaders_lastEntry (cfg : RssConfig) (p : Persist) (r : HttpResp) :
    (updateCacheHeaders cfg p r).lastEntry = p.lastEntry := by
  unfold updateCacheHeaders
  repeat' split
  all_goals rfl

/-- An early fetch-stage outcome (request failure, 304, bad status) leaves
the persisted state untouched. -/
theorem fetchStage_inl_persist (cfg : RssConfig) (p : Persist) (w : FetchWorld)
    (o : Outcome) (h : fetchStage cfg p w = Sum.inl o) : o.persist = p := by
  unfold fetchStage at h
  repeat' split at h
  all_goals cases h
  all_goals rfl

/-- When fetching proceeds to the body, only etag and last-modified may have
been staged; the watermark is unchanged. -/
theorem fetchStage_inr_lastEntry (cfg : RssConfig) (p : Persist) (w : FetchWorld)
    (cp : String × Persist) (h : fetchStage cfg p w = Sum.inr cp) :
    cp.2.lastEntry = p.lastEntry := by
  unfold fetchStage at h
  repeat' split at h
  all_goals cases h
  all_goals first
    | rfl
    | exact updateCacheHeaders_lastEntry cfg p _

/-- After the loop, either the watermark key is untouched or the run returns
an item list (the watermark is only written on the normal return path). -/
theorem loopFinish_lastEntry_or_items (p1 : Persist) (dumps : Nat) (lp : LoopOut) :
    (loopFinish p1 dumps lp).persist.lastEntry = p1.lastEntry ∨
    ∃ out, (loopFinish p1 dumps lp).result = RunResult.items out := by
  unfold loopFinish
  repeat' split
  · exact Or.inl rfl
  · exact Or.inr ⟨_, rfl⟩
  · exact Or.inl rfl
  · exact Or.inr ⟨_, rfl⟩

/-- The same, for the composed loop stage. -/
theorem loopStage_lastEntry_or_items (cfg : RssConfig) (p1 : Persist)
    (lastId : Option String) (es : List RawEntry) (dumps : Nat) :
    (loopStage cfg p1 lastId es dumps).persist.lastEntry = p1.lastEntry ∨
    ∃ out, (loopStage cfg p1 lastId es dumps).result = RunResult.items out :=
  loopFinish_lastEntry_or_items p1 dumps (runLoop cfg (fieldsList cfg) lastId es)

/-- Same property, lifted through the sorting stage. -/
theorem entryStage_lastEntry_or_items (cfg : RssConfig) (opts : TaskOpts)
    (p1 : Persist) (feed : ParsedFeed) (dumps : Nat) :
    (entryStage cfg opts p1 feed dumps).persist.lastEntry = p1.lastEntry ∨
    ∃ out, (entryStage cfg opts p1 feed dumps).result = RunResult.items out := by
  unfold entryStage
  repeat' split
  · exact loopStage_lastEntry_or_items ..
  · exact Or.inl rfl
  · exact loopStage_lastEntry_or_items ..

/-- Same property, lifted through the bozo classification. -/
theorem parseStage_lastEntry_or_items (cfg : RssConfig) (opts : TaskOpts)
    (p1 : Persist) (feed : ParsedFeed) (dumps0 : Nat) :
    (parseStage cfg opts p1 feed dumps0).persist.lastEntry = p1.lastEntry ∨
    ∃ out, (parseStage cfg opts p1 feed dumps0).result = RunResult.items out := by
  unfold parseStage
  split
  · exact Or.inl rfl
  · exact entryStage_lastEntry_or_items ..

/-- Same property, lifted through the empty-body and LookupError checks. -/
theorem contentStage_lastEntry_or_items (cfg : RssConfig) (opts : TaskOpts)
    (p1 : Persist) (content : String) (w : FetchWorld) :
    (contentStage cfg opts p1 content w).persist.lastEntry = p1.lastEntry ∨
    ∃ out, (contentStage cfg opts p1 content w).result = RunResult.items out := by
  unfold contentStage
  repeat' split
  · exact Or.inl rfl
  · exact Or.inl rfl
  · exact parseStage_lastEntry_or_items ..

/-- Claim C1, amended: the last-entry watermark is written at most once per
run and only on a run that returns a normal item list (never on an abort or
a bare None return); the etag and last-modified cache fields, however, are
persisted right after a successful non-304 fetch and before parsing, so a
run that aborts during parsing can already have persisted them (see the
counterexample). -/
theorem C1_amended (cfg : RssConfig) (opts : TaskOpts) (p : Persist)
    (w : FetchWorld) :
    (runRss cfg opts p w).persist.lastEntry = p.lastEntry ∨
    ∃ out, (runRss cfg opts p w).result = RunResult.items out := by
  unfold runRss
  cases hf : fetchStage cfg p w with
  | inl o =>
    exact Or.inl (by rw [fetchStage_inl_persist cfg p w o hf])
  | inr cp =>
    rcases contentStage_lastEntry_or_items cfg opts cp.2 cp.1 w with h | h
    · exact Or.inl (by rw [h, fetchStage_inr_lastEntry cfg p w cp hf])
    · exact Or.inr h

/-- Claim C10: when the fetched body is empty, the run logs an error and
returns None — neither an item list, nor the empty-and-acceptable signal
(`no_entries_ok` stays false), nor a raised failure. -/
theorem C10_empty_body (cfg : RssConfig) (opts : TaskOpts) (p p1 : Persist)
    (w : FetchWorld) (h : fetchStage cfg p w = Sum.inr ("", p1)) :
    runRss cfg opts p w = ⟨RunResult.noneRet, p1, false, 0, 0⟩ := by
  unfold runRss
  rw [h]
  rfl

def c10Cfg : RssConfig := { url := "http://x/feed" }

/-- A 200 response with an empty body (and an etag header). -/
def c10World : FetchWorld :=
  ⟨some ⟨200, "", some "E2", none, none⟩, "", false, ⟨none, some false, []⟩⟩

def c10Persist1 : Persist := ⟨some "E2", none, none⟩

/-- Witness for C10 at a concrete 200-with-empty-body response. -/
theorem C10_witness :
    fetchStage c10Cfg emptyPersist c10World = Sum.inr ("", c10Persist1) ∧
    runRss c10Cfg plainOpts emptyPersist c10World =
      ⟨RunResult.noneRet, c10Persist1, false, 0, 0⟩ :=
  ⟨by decide, C10_empty_body c10Cfg plainOpts emptyPersist c10Persist1 c10World (by decide)⟩

/-- When the loop did not crash, the first post-loop entry carries a usable
watermark, and the run persists exactly that watermark while returning the
loop's items — whatever those items are. -/
theorem loopFinish_watermark (p1 : Persist) (dumps : Nat) (lp : LoopOut)
    (e0 : RawEntry) (s : String)
    (hnc : lp.ending.isCrash = false)
    (hh : lp.entriesAfter.head? = some e0)
    (hw : watermark e0 = Except.ok s) :
    (loopFinish p1 dumps lp).persist.lastEntry = some s ∧
    (loopFinish p1 dumps lp).result = RunResult.items lp.items := by
  rcases lp with ⟨ea, its, ign, ending⟩
  cases ending with
  | crashed err => simp [LoopEnd.isCrash] at hnc
  | done =>
    cases ea with
    | nil => simp at hh
    | cons x xs =>
      simp at hh
      subst hh
      simp only [loopFinish]
      rw [hw]
      exact ⟨rfl, rfl⟩
  | broke =>
    cases ea with
    | nil => simp at hh
    | cons x xs =>
      simp at hh
      subst hh
      simp only [loopFinish]
      rw [hw]
      exact ⟨rfl, rfl⟩

/-- Claim C6, amended: whenever the feed yields at least one raw entry and
the scan completes without an unhandled exception and the first (post-scan,
descending-sorted) entry carries a string title attribute, the run persists
the watermark `title + guid_or_empty` of that first entry — even when zero
output items survived title and url filtering. (When the first entry lacks
the title attribute entirely, the run instead aborts with AttributeError and
persists no watermark — see the counterexample.) -/
theorem C6_amended (cfg : RssConfig) (p1 : Persist) (lastId : Option String)
    (es : List RawEntry) (dumps : Nat) (e0 : RawEntry) (s : String)
    (hnc : (runLoop cfg (fieldsList cfg) lastId es).ending.isCrash = false)
    (hh : (runLoop cfg (fieldsList cfg) lastId es).entriesAfter.head? = some e0)
    (hw : watermark e0 = Except.ok s) :
    (loopStage cfg p1 lastId es dumps).persist.lastEntry = some s ∧
    (loopStage cfg p1 lastId es dumps).result =
      RunResult.items (runLoop cfg (fieldsList cfg) lastId es).items :=
  loopFinish_watermark p1 dumps (runLoop cfg (fieldsList cfg) lastId es) e0 s hnc hh hw

def c6aCfg : RssConfig := { url := "feed.xml" }

/-- An entry with a title but no link, guid or enclosure: it is dropped by
url filtering, so the run emits zero items. -/
def c6aEntry : RawEntry := ⟨[("title", .str "T")], [], none⟩

/-- Witness for the amended C6: the single titled-but-linkless entry yields
zero output items, yet the watermark "T" is persisted. -/
theorem C6_amended_witness :
    ((runLoop c6aCfg (fieldsList c6aCfg) none [c6aEntry]).ending.isCrash = false ∧
     (runLoop c6aCfg (fieldsList c6aCfg) none [c6aEntry]).items = [] ∧
     (runLoop c6aCfg (fieldsList c6aCfg) none [c6aEntry]).ignored = 1) ∧
    ((loopStage c6aCfg emptyPersist none [c6aEntry] 0).persist.lastEntry = some "T" ∧
     (loopStage c6aCfg emptyPersist none [c6aEntry] 0).result =
       RunResult.items (runLoop c6aCfg (fieldsList c6aCfg) none [c6aEntry]).items) :=
  ⟨by decide,
   C6_amended c6aCfg emptyPersist none [c6aEntry] 0 c6aEntry "T"
     (by decide) (by decide) (by decide)⟩

/-! ## The dedup horizon (C5) -/

/-- Exactly the condition under which the loop body hits the `break` at line
339: the entry has a truthy string title, `title + guid_or_empty` is
computable, and it equals the stored watermark. -/
def dedupMatches (cfg : RssConfig) (lastId : Option String) (e : RawEntry) : Bool :=
  match e.getField (entryTf cfg) with
  | some (.str t) =>
    if pyTruthy (.str t) then
      match guidOrEmpty (e.setField "title" (.str t)) with
      | .ok g => decide (lastId = some (t ++ g))
      | .error _ => false
    else false
  | _ => false

/-- A matching entry makes the loop body break, with its title set to the
raw title-field value. -/
theorem processEntry_brk_of_match (cfg : RssConfig) (flds : List (String × String))
    (lastId : Option String) (e : RawEntry) (t g : String)
    (ht : e.getField (entryTf cfg) = some (.str t)) (htne : t ≠ "")
    (hg : guidOrEmpty (e.setField "title" (.str t)) = Except.ok g)
    (hl : lastId = some (t ++ g)) :
    processEntry cfg flds lastId e = .brk (e.setField "title" (.str t)) := by
  unfold processEntry
  rw [ht]
  have hpt : pyTruthy (.str t) = true := by
    simp [pyTruthy]
    exact htne
  simp only [hpt, if_true, hg, hl, if_pos rfl]

/-- The post-dedup part of an iteration never breaks the loop. -/
theorem resolveEntry_ne_brk (cfg : RssConfig) (flds : List (String × String))
    (e1 : RawEntry) (t : String) :
    ∀ e2, resolveEntry cfg flds e1 t ≠ .brk e2 := by
  intro e2 h
  unfold resolveEntry at h
  repeat' split at h
  all_goals cases h

/-- A non-matching entry never makes the loop body break. -/
theorem processEntry_ne_brk (cfg : RssConfig) (flds : List (String × String))
    (lastId : Option String) (e : RawEntry)
    (hd : dedupMatches cfg lastId e = false) :
    ∀ e2, processEntry cfg flds lastId e ≠ .brk e2 := by
  intro e2 h
  unfold processEntry at h
  unfold dedupMatches at hd
  repeat' split at h
  all_goals try (exact resolveEntry_ne_brk cfg flds _ _ e2 h)
  all_goals try (cases h)
  all_goals simp_all

/-- Claim C5: in incremental mode the scan compares each titled entry's
`title + guid_or_empty` fingerprint against the stored watermark, and the
first matching entry halts the scan: that entry and everything after it
produce no output items, while every preceding entry is processed as usual
(the full scan's items equal the items of the scan restricted to the
preceding entries), and the scan ends in the broke state whenever the
preceding entries ran through without crashing. -/
theorem C5_dedup_horizon (cfg : RssConfig) (flds : List (String × String))
    (fp : String) (pre suf : List RawEntry) (ej : RawEntry) (tj gj : String)
    (hpre : ∀ e ∈ pre, dedupMatches cfg (some fp) e = false)
    (ht : ej.getField (entryTf cfg) = some (.str tj)) (htne : tj ≠ "")
    (hg : guidOrEmpty (ej.setField "title" (.str tj)) = Except.ok gj)
    (hfp : tj ++ gj = fp) :
    (runLoop cfg flds (some fp) (pre ++ ej :: suf)).items =
      (runLoop cfg flds (some fp) pre).items ∧
    ((runLoop cfg flds (some fp) pre).ending = LoopEnd.done →
      (runLoop cfg flds (some fp) (pre ++ ej :: suf)).ending = LoopEnd.broke) := by
  have hb : processEntry cfg flds (some fp) ej = .brk (ej.setField "title" (.str tj)) :=
    processEntry_brk_of_match cfg flds (some fp) ej tj gj ht htne hg (by rw [hfp])
  induction pre with
  | nil =>
    constructor
    · show (runLoop cfg flds (some fp) (ej :: suf)).items = _
      simp [runLoop, hb]
    · intro _
      show (runLoop cfg flds (some fp) (ej :: suf)).ending = _
      simp [runLoop, hb]
  | cons e pre ih =>
    have hd : dedupMatches cfg (some fp) e = false := hpre e (by simp)
    have hpre2 : ∀ x ∈ pre, dedupMatches cfg (some fp) x = false :=
      fun x hx => hpre x (by simp [hx])
    have ih2 := ih hpre2
    rw [List.cons_append]
    cases hpe : processEntry cfg flds (some fp) e with
    | skip =>
      simp only [runLoop, hpe]
      exact ⟨ih2.1, ih2.2⟩
    | brk e2 => exact absurd hpe (processEntry_ne_brk cfg flds (some fp) e hd e2)
    | iErr e2 err => simp [runLoop, hpe]
    | out e2 its ign =>
      simp only [runLoop, hpe]
      exact ⟨by rw [ih2.1], ih2.2⟩

def c5Cfg : RssConfig := { url := "feed5.xml" }

def c5e0 : RawEntry := ⟨[("title", .str "T0"), ("link", .str "http://l0")], [], none⟩

def c5e1 : RawEntry := ⟨[("title", .str "T1"), ("link", .str "http://l1")], [], none⟩

def c5e2 : RawEntry := ⟨[("title", .str "T2"), ("link", .str "http://l2")], [], none⟩

def c5e3 : RawEntry := ⟨[("title", .str "T3"), ("link", .str "http://l3")], [], none⟩

def c5e4 : RawEntry := ⟨[("title", .str "T4"), ("link", .str "http://l4")], [], none⟩

def c5i0 : OutputItem := { title := "T0", url := some (.str "http://l0") }

def c5i1 : OutputItem := { title := "T1", url := some (.str "http://l1") }

/-- Witness for C5: five entries with the stored fingerprint matching at
index 2; exactly the items of indices 0 and 1 are emitted and the scan ends
in the broke state. -/
theorem C5_witness :
    ((∀ e ∈ [c5e0, c5e1], dedupMatches c5Cfg (some "T2") e = false) ∧
     c5e2.getField (entryTf c5Cfg) = some (.str "T2") ∧
     guidOrEmpty (c5e2.setField "title" (.str "T2")) = Except.ok "" ∧
     (runLoop c5Cfg (fieldsList c5Cfg) (some "T2") [c5e0, c5e1]).items = [c5i0, c5i1] ∧
     (runLoop c5Cfg (fieldsList c5Cfg) (some "T2") [c5e0, c5e1]).ending = LoopEnd.done) ∧
    ((runLoop c5Cfg (fieldsList c5Cfg) (some "T2")
        ([c5e0, c5e1] ++ c5e2 :: [c5e3, c5e4])).items =
      (runLoop c5Cfg (fieldsList c5Cfg) (some "T2") [c5e0, c5e1]).items ∧
     ((runLoop c5Cfg (fieldsList c5Cfg) (some "T2") [c5e0, c5e1]).ending = LoopEnd.done →
      (runLoop c5Cfg (fieldsList c5Cfg) (some "T2")
        ([c5e0, c5e1] ++ c5e2 :: [c5e3, c5e4])).ending = LoopEnd.broke)) :=
  ⟨by decide,
   C5_dedup_horizon c5Cfg (fieldsList c5Cfg) "T2" [c5e0, c5e1] [c5e3, c5e4] c5e2 "T2" ""
     (by decide) (by decide) (by decide) (by decide) (by decide)⟩

/-! ## The enclosure fan-out (C9) -/

/-- Dict assignment does not touch the enclosure list. -/
theorem setField_enclosures (e : RawEntry) (k : String) (v : FieldVal) :
    (e.setField k v).enclosures = e.enclosures := by
  unfold RawEntry.setField
  split <;> rfl

/-- Dict assignment of a string value preserves all-fields-are-strings. -/
theorem setField_fields_isStr (e : RawEntry) (k s : String)
    (h : ∀ kv ∈ e.fields, kv.2.isStr = true) :
    ∀ kv ∈ (e.setField k (.str s)).fields, kv.2.isStr = true := by
  unfold RawEntry.setField
  split
  · intro kv hkv
    simp only [List.mem_map] at hkv
    obtain ⟨kv0, hkv0, hval⟩ := hkv
    split at hval
    · rw [← hval]; rfl
    · rw [← hval]; exact h kv0 hkv0
  · intro kv hkv
    simp only [List.mem_append, List.mem_singleton] at hkv
    rcases hkv with hkv | hkv
    · exact h kv hkv
    · rw [hkv]; rfl

/-- A looked-up field value of an all-strings entry is a string. -/
theorem getField_isStr (e : RawEntry) (k : String) (v : FieldVal)
    (hstr : ∀ kv ∈ e.fields, kv.2.isStr = true)
    (h : e.getField k = some v) : v.isStr = true := by
  unfold RawEntry.getField at h
  cases hf : e.fields.find? (fun kv => kv.1 == k) with
  | none => rw [hf] at h; cases h
  | some kv =>
    rw [hf] at h
    simp only [Option.map_some', Option.some.injEq] at h
    rw [← h]
    exact hstr kv (List.mem_of_find?_eq_some hf)

/-- On an all-strings entry the `title + guid_or_empty` concatenation never
raises. -/
theorem guidOrEmpty_ok_of_strs (e : RawEntry)
    (hstr : ∀ kv ∈ e.fields, kv.2.isStr = true) :
    ∃ g, guidOrEmpty e = Except.ok g := by
  unfold guidOrEmpty
  cases hg : e.getField "guid" with
  | none => exact ⟨"", rfl⟩
  | some v =>
    have hv := getField_isStr e "guid" v hstr hg
    cases v with
    | str s => exact ⟨s, rfl⟩
    | nonStr a b => simp [FieldVal.isStr] at hv

/-- Setting an extra output field changes nothing else. -/
theorem setExtra_shape (ea : OutputItem) (k v : String) :
    (setExtra ea k v).title = ea.title ∧ (setExtra ea k v).url = ea.url ∧
    (setExtra ea k v).urls = ea.urls ∧ (setExtra ea k v).size = ea.size := by
  unfold setExtra
  split <;> exact ⟨rfl, rfl, rfl, rfl⟩

/-- The field-projection loop only touches the extra fields. -/
theorem addEntryFields_shape (cfg : RssConfig) (e : RawEntry) :
    ∀ (flds : List (String × String)) (ea ea1 : OutputItem),
      addEntryFields cfg e ea flds = Except.ok ea1 →
      ea1.title = ea.title ∧ ea1.url = ea.url ∧ ea1.urls = ea.urls ∧
        ea1.size = ea.size := by
  intro flds
  induction flds with
  | nil =>
    intro ea ea1 h
    cases h
    exact ⟨rfl, rfl, rfl, rfl⟩
  | cons p rest ih =>
    intro ea ea1 h
    rcases p with ⟨rf, ff⟩
    unfold addEntryFields at h
    split at h
    · exact ih ea ea1 h
    · cases h
    · split at h
      · exact ih ea ea1 h
      · rename_i s heq hs
        have h2 := ih (setExtra ea ff (decodeHtml s)) ea1 h
        have h3 := setExtra_shape ea ff (decodeHtml s)
        exact ⟨h2.1.trans h3.1, h2.2.1.trans h3.2.1, h2.2.2.1.trans h3.2.2.1,
          h2.2.2.2.trans h3.2.2.2⟩

/-- The helper `add_entry` sets the title to the cleaned title and leaves url, urls and
size as the enclosure step produced them. -/
theorem addEntry_ok_shape (cfg : RssConfig) (flds : List (String × String))
    (e : RawEntry) (t : String) (ea ea1 : OutputItem)
    (h : addEntry cfg flds e t ea = Except.ok ea1) :
    ea1.title = t ∧ ea1.url = ea.url ∧ ea1.urls = ea.urls ∧ ea1.size = ea.size := by
  unfold addEntry at h
  cases haf : addEntryFields cfg e { ea with title := t } flds with
  | error err => rw [haf] at h; cases h
  | ok ea2 =>
    rw [haf] at h
    have hs := addEntryFields_shape cfg e flds _ _ haf
    cases h' : e.publishedParsed <;> rw [h'] at h <;>
      cases hu : cfg.username <;> rw [hu] at h <;>
        first
          | (cases h; exact hs)
          | (cases hp : cfg.password <;> rw [hp] at h <;> cases h <;> exact hs)

/-- On an all-strings entry the field-projection loop always succeeds. -/
theorem addEntryFields_ok_exists (cfg : RssConfig) (e : RawEntry)
    (hstr : ∀ kv ∈ e.fields, kv.2.isStr = true) :
    ∀ (flds : List (String × String)) (ea : OutputItem),
      ∃ ea1, addEntryFields cfg e ea flds = Except.ok ea1 := by
  intro flds
  induction flds with
  | nil => intro ea; exact ⟨ea, rfl⟩
  | cons p rest ih =>
    intro ea
    rcases p with ⟨rf, ff⟩
    unfold addEntryFields
    cases hg : e.getField rf with
    | none => exact ih ea
    | some v =>
      have hv := getField_isStr e rf v hstr hg
      cases v with
      | nonStr a b => simp [FieldVal.isStr] at hv
      | str s =>
        by_cases hse : s = ""
        · simp only [hse, if_pos rfl]
          exact ih ea
        · simp only [if_neg hse]
          exact ih (setExtra ea ff (decodeHtml s))

/-- On an all-strings entry `add_entry` always succeeds. -/
theorem addEntry_ok_exists (cfg : RssConfig) (flds : List (String × String))
    (e : RawEntry) (t : String) (ea : OutputItem)
    (hstr : ∀ kv ∈ e.fields, kv.2.isStr = true) :
    ∃ ea1, addEntry cfg flds e t ea = Except.ok ea1 := by
  unfold addEntry
  obtain ⟨ea2, h2⟩ := addEntryFields_ok_exists cfg e hstr flds { ea with title := t }
  rw [h2]
  cases e.publishedParsed <;> cases cfg.username <;> cases cfg.password <;>
    exact ⟨_, rfl⟩

/-- The enclosure step stores the enclosure's href as the url. -/
theorem add_enclosure_info_url (ea : OutputItem) (enc : Enclosure) (f m : Bool) :
    (add_enclosure_info ea enc f m).url = enc.href.map FieldVal.str := by
  simp only [add_enclosure_info]
  repeat' split
  all_goals rfl

/-- The enclosure step parses the length into the size, zero on failure,
keeping the (absent) incoming size when no length is given. -/
theorem add_enclosure_info_size (ea : OutputItem) (enc : Enclosure) (f m : Bool)
    (h : ea.size = none) :
    (add_enclosure_info ea enc f m).size =
      enc.length.map (fun l => (pyInt l).getD 0) := by
  simp only [add_enclosure_info]
  repeat' split
  all_goals simp_all

/-- The constructor `FieldVal.str` is injective. -/
theorem FieldVal.str_injective : Function.Injective FieldVal.str := by
  intro a b h
  injection h

/-- The fan-out over enclosures that all carry an href: one item per
enclosure, in order, with that enclosure's href as url, its parsed length as
size, and the cleaned title. -/
theorem fanOut_spec (cfg : RssConfig) (flds : List (String × String))
    (e : RawEntry) (t : String)
    (hstr : ∀ kv ∈ e.fields, kv.2.isStr = true) :
    ∀ encs : List Enclosure, (∀ enc ∈ encs, enc.href.isSome = true) →
    ∃ its, fanOut cfg flds e t encs = Except.ok its ∧
      its.map (fun it => it.url) = encs.map (fun enc => enc.href.map FieldVal.str) ∧
      its.map (fun it => it.size) =
        encs.map (fun enc => enc.length.map (fun l => (pyInt l).getD 0)) ∧
      ∀ it ∈ its, it.title = t := by
  intro encs
  induction encs with
  | nil =>
    intro _
    exact ⟨[], rfl, rfl, rfl, by intro it h; cases h⟩
  | cons enc rest ih =>
    intro hh
    obtain ⟨hits, hfo, hurl, hsize, htitle⟩ := ih (fun x hx => hh x (by simp [hx]))
    have hhd := hh enc (by simp)
    cases hhref : enc.href with
    | none => rw [hhref] at hhd; cases hhd
    | some h0 =>
      obtain ⟨ea1, hae⟩ := addEntry_ok_exists cfg flds e t
        (add_enclosure_info {} enc (effFilename cfg) true) hstr
      have hshape := addEntry_ok_shape cfg flds e t _ ea1 hae
      refine ⟨ea1 :: hits, ?_, ?_, ?_, ?_⟩
      · show fanOut cfg flds e t (enc :: rest) = Except.ok (ea1 :: hits)
        unfold fanOut
        rw [hhref, hae, hfo]
      · simp only [List.map_cons]
        rw [hurl, hshape.2.1, add_enclosure_info_url]
      · simp only [List.map_cons]
        rw [hsize, hshape.2.2.2, add_enclosure_info_size _ _ _ _ rfl]
      · intro it hit
        rcases List.mem_cons.mp hit with hit | hit
        · rw [hit]; exact hshape.1
        · exact htitle it hit

/-- Claim C9: for an entry with more than one enclosure, all carrying hrefs,
and `group_links` off, the loop body fans out into exactly one item per
enclosure (the parent entry contributes no further item and nothing is
tallied as ignored), each item holding that enclosure's href as url and its
length parsed as size (0 on parse failure, absent when no length is given);
when the hrefs are pairwise distinct the urls are, and when no href equals
the entry's non-enclosure `link` value no item url equals it either. -/
theorem C9_fanout (cfg : RssConfig) (flds : List (String × String))
    (lastId : Option String) (e : RawEntry) (t : String)
    (hgl : cfg.groupLinks = false)
    (hlen : 1 < e.enclosures.length)
    (hhref : ∀ enc ∈ e.enclosures, enc.href.isSome = true)
    (hstr : ∀ kv ∈ e.fields, kv.2.isStr = true)
    (ht : e.getField (entryTf cfg) = some (.str t)) (htne : t ≠ "")
    (hnm : dedupMatches cfg lastId e = false) :
    ∃ its, processEntry cfg flds lastId e =
        .out (cleanedEntry cfg (e.setField "title" (.str t)) t) its 0 ∧
      its.map (fun it => it.url) =
        e.enclosures.map (fun enc => enc.href.map FieldVal.str) ∧
      its.map (fun it => it.size) =
        e.enclosures.map (fun enc => enc.length.map (fun l => (pyInt l).getD 0)) ∧
      (∀ it ∈ its, it.title = cleanTitle cfg t) ∧
      its.length = e.enclosures.length ∧
      ((e.enclosures.map (fun enc => enc.href)).Nodup →
        (its.map (fun it => it.url)).Nodup) ∧
      (∀ L, e.getField "link" = some (.str L) →
        (∀ enc ∈ e.enclosures, enc.href ≠ some L) →
        ∀ it ∈ its, it.url ≠ some (.str L)) := by
  have hpt : pyTruthy (FieldVal.str t) = true := by
    simp only [pyTruthy, bne_iff_ne, ne_eq]
    exact htne
  have hstr1 := setField_fields_isStr e "title" t hstr
  obtain ⟨g, hg⟩ := guidOrEmpty_ok_of_strs (e.setField "title" (.str t)) hstr1
  have hne : lastId ≠ some (t ++ g) := by
    intro hl
    have hdm : dedupMatches cfg lastId e = true := by
      simp only [dedupMatches, ht, hpt, if_true, hg, hl]
      simp
    rw [hdm] at hnm
    cases hnm
  have hpe : processEntry cfg flds lastId e =
      resolveEntry cfg flds (e.setField "title" (.str t)) t := by
    simp only [processEntry, ht, hpt, if_true, hg, if_neg hne]
  have henc2 : (cleanedEntry cfg (e.setField "title" (.str t)) t).enclosures =
      e.enclosures := by
    unfold cleanedEntry
    rw [setField_enclosures, setField_enclosures]
  have hcond : (decide
      (1 < (cleanedEntry cfg (e.setField "title" (.str t)) t).enclosures.length) &&
      !cfg.groupLinks) = true := by
    rw [henc2, hgl]
    simp [hlen]
  obtain ⟨its, hfo, hurl, hsize, htitle⟩ :=
    fanOut_spec cfg flds (cleanedEntry cfg (e.setField "title" (.str t)) t)
      (cleanTitle cfg t)
      (setField_fields_isStr (e.setField "title" (.str t)) "title" (cleanTitle cfg t) hstr1)
      (cleanedEntry cfg (e.setField "title" (.str t)) t).enclosures
      (by rw [henc2]; exact hhref)
  have hpe2 : processEntry cfg flds lastId e =
      .out (cleanedEntry cfg (e.setField "title" (.str t)) t) its 0 := by
    rw [hpe]
    simp only [resolveEntry, hcond, if_true, hfo]
  refine ⟨its, hpe2, ?_, ?_, htitle, ?_, ?_, ?_⟩
  · rw [hurl, henc2]
  · rw [hsize, henc2]
  · have hlen2 := congrArg List.length hurl
    simp only [List.length_map] at hlen2
    rw [hlen2, henc2]
  · intro hnd
    rw [hurl, henc2]
    rw [show (e.enclosures.map fun enc => enc.href.map FieldVal.str) =
        (e.enclosures.map fun enc => enc.href).map (Option.map FieldVal.str) by
      rw [List.map_map]; rfl]
    exact List.Nodup.map (Option.map_injective FieldVal.str_injective) hnd
  · intro L hL hne2 it hit
    have hmem : it.url ∈ its.map (fun it2 => it2.url) := List.mem_map_of_mem _ hit
    rw [hurl, henc2] at hmem
    simp only [List.mem_map] at hmem
    obtain ⟨enc, hencm, hval⟩ := hmem
    have hs := hhref enc hencm
    cases hh0 : enc.href with
    | none => rw [hh0] at hs; cases hs
    | some h0 =>
      rw [hh0] at hval
      intro hcontra
      rw [← hval] at hcontra
      simp only [Option.map_some', Option.some.injEq, FieldVal.str.injEq] at hcontra
      exact hne2 enc hencm (by rw [hh0, hcontra])

def c9Cfg : RssConfig := { url := "feed9.xml" }

/-- An entry with three enclosures: one with a parseable length, one whose
length fails to parse, one without a length; plus a distinct parent link. -/
def c9Entry : RawEntry :=
  ⟨[("title", .str "T"), ("link", .str "http://parent")],
   [⟨some "http://a/f.mp4", some "10", none⟩,
    ⟨some "http://b", some "xyz", some "video/mp4"⟩,
    ⟨some "http://c", none, none⟩], none⟩

/-- Witness for C9 at a concrete three-enclosure entry. -/
theorem C9_witness :
    (c9Cfg.groupLinks = false ∧ 1 < c9Entry.enclosures.length ∧
     (∀ enc ∈ c9Entry.enclosures, enc.href.isSome = true) ∧
     (∀ kv ∈ c9Entry.fields, kv.2.isStr = true) ∧
     c9Entry.getField (entryTf c9Cfg) = some (.str "T") ∧ "T" ≠ "" ∧
     dedupMatches c9Cfg none c9Entry = false) ∧
    (∃ its, processEntry c9Cfg (fieldsList c9Cfg) none c9Entry =
        .out (cleanedEntry c9Cfg (c9Entry.setField "title" (.str "T")) "T") its 0 ∧
      its.map (fun it => it.url) =
        c9Entry.enclosures.map (fun enc => enc.href.map FieldVal.str) ∧
      its.map (fun it => it.size) =
        c9Entry.enclosures.map (fun enc => enc.length.map (fun l => (pyInt l).getD 0)) ∧
      (∀ it ∈ its, it.title = cleanTitle c9Cfg "T") ∧
      its.length = c9Entry.enclosures.length ∧
      ((c9Entry.enclosures.map (fun enc => enc.href)).Nodup →
        (its.map (fun it => it.url)).Nodup) ∧
      (∀ L, c9Entry.getField "link" = some (.str L) →
        (∀ enc ∈ c9Entry.enclosures, enc.href ≠ some L) →
        ∀ it ∈ its, it.url ≠ some (.str L))) :=
  ⟨by decide,
   C9_fanout c9Cfg (fieldsList c9Cfg) none c9Entry "T" (by decide) (by decide)
     (by decide) (by decide) (by decide) (by decide) (by decide)⟩

/-! ## Emission soundness (C3) -/

/-- What the claim asserts of an emitted item: a non-empty title and a
present, truthy (hence non-empty when a string) url. -/
def emittedOk (it : OutputItem) : Prop :=
  it.title ≠ "" ∧ ∃ v, it.url = some v ∧ pyTruthy v = true

/-- Whether title cleanup keeps the entry's effective title non-empty (holds
vacuously when the title field is absent or not a string). -/
def titleCleanOk (cfg : RssConfig) (e : RawEntry) : Bool :=
  match e.getField (entryTf cfg) with
  | some (.str t) => cleanTitle cfg t != ""
  | _ => true

/-- Every fan-out item carries the cleaned title and the href of one of the
enclosures as its url. -/
theorem fanOut_items_sound (cfg : RssConfig) (flds : List (String × String))
    (e : RawEntry) (t : String) :
    ∀ (encs : List Enclosure) (its : List OutputItem),
      fanOut cfg flds e t encs = Except.ok its →
      ∀ it ∈ its, it.title = t ∧
        ∃ enc ∈ encs, ∃ h0, enc.href = some h0 ∧ it.url = some (.str h0) := by
  intro encs
  induction encs with
  | nil =>
    intro its h it hit
    cases h
    cases hit
  | cons enc rest ih =>
    intro its h it hit
    unfold fanOut at h
    cases hh : enc.href with
    | none =>
      rw [hh] at h
      obtain ⟨h1, enc2, hmem, hrest⟩ := ih its h it hit
      exact ⟨h1, enc2, List.mem_cons_of_mem _ hmem, hrest⟩
    | some h0 =>
      rw [hh] at h
      cases hae : addEntry cfg flds e t (add_enclosure_info {} enc (effFilename cfg) true) with
      | error err => rw [hae] at h; cases h
      | ok ee =>
        rw [hae] at h
        cases hfo : fanOut cfg flds e t rest with
        | error err => rw [hfo] at h; cases h
        | ok rest2 =>
          rw [hfo] at h
          cases h
          rcases List.mem_cons.mp hit with hit | hit
          · have hs := addEntry_ok_shape cfg flds e t _ ee hae
            refine ⟨by rw [hit]; exact hs.1, enc, List.mem_cons_self enc rest, h0, hh, ?_⟩
            rw [hit, hs.2.1, add_enclosure_info_url, hh]
            rfl
          · obtain ⟨h1, enc2, hmem, hrest⟩ := ih rest2 hfo it hit
            exact ⟨h1, enc2, List.mem_cons_of_mem _ hmem, hrest⟩

/-- A single-branch item carries the cleaned title and a truthy url (the
no-url case was dropped before `add_entry`). -/
theorem singleItem_some_sound (cfg : RssConfig) (flds : List (String × String))
    (e : RawEntry) (t : String) (it : OutputItem)
    (h : singleItem cfg flds e t = Except.ok (some it)) :
    it.title = t ∧ ∃ v, it.url = some v ∧ pyTruthy v = true := by
  unfold singleItem at h
  cases hgs : groupStep cfg e (resolveUrl cfg e) with
  | error err => rw [hgs] at h; cases h
  | ok eg =>
    rw [hgs] at h
    simp only [] at h
    cases hu : eg.url with
    | none => rw [hu] at h; cases h
    | some u =>
      rw [hu] at h
      simp only [] at h
      by_cases hpt : pyTruthy u = true
      · rw [if_pos hpt] at h
        cases hae : addEntry cfg flds e t eg with
        | error err => rw [hae] at h; cases h
        | ok it2 =>
          rw [hae] at h
          cases h
          have hs := addEntry_ok_shape cfg flds e t eg it hae
          exact ⟨hs.1, u, by rw [hs.2.1, hu], hpt⟩
      · rw [if_neg hpt] at h
        cases h

/-- Enclosures survive the title cleanup untouched. -/
theorem cleanedEntry_enclosures (cfg : RssConfig) (e1 : RawEntry) (t : String) :
    (cleanedEntry cfg e1 t).enclosures = e1.enclosures := by
  unfold cleanedEntry
  rw [setField_enclosures]

/-- Every item the post-dedup part emits satisfies the emission invariant,
provided no enclosure href is the empty string and cleanup keeps the title
non-empty. -/
theorem resolveEntry_out_sound (cfg : RssConfig) (flds : List (String × String))
    (e1 : RawEntry) (t : String) (e2 : RawEntry) (its : List OutputItem) (ign : Nat)
    (hhref : ∀ enc ∈ e1.enclosures, enc.href ≠ some "")
    (htc : cleanTitle cfg t ≠ "")
    (h : resolveEntry cfg flds e1 t = .out e2 its ign) :
    ∀ it ∈ its, emittedOk it := by
  intro it hit
  unfold resolveEntry at h
  by_cases hc : (decide (1 < (cleanedEntry cfg e1 t).enclosures.length) &&
      !cfg.groupLinks) = true
  · rw [if_pos hc] at h
    cases hfo : fanOut cfg flds (cleanedEntry cfg e1 t) (cleanTitle cfg t)
        (cleanedEntry cfg e1 t).enclosures with
    | error err => rw [hfo] at h; cases h
    | ok its2 =>
      rw [hfo] at h
      cases h
      obtain ⟨h1, enc, hmem, h0, hh0, hurl⟩ :=
        fanOut_items_sound cfg flds _ _ _ its hfo it hit
      rw [cleanedEntry_enclosures] at hmem
      have hne0 : h0 ≠ "" := by
        intro hc0
        exact hhref enc hmem (by rw [hh0, hc0])
      refine ⟨by rw [h1]; exact htc, .str h0, hurl, ?_⟩
      simp only [pyTruthy, bne_iff_ne, ne_eq]
      exact hne0
  · rw [if_neg hc] at h
    cases hsi : singleItem cfg flds (cleanedEntry cfg e1 t) (cleanTitle cfg t) with
    | error err => rw [hsi] at h; cases h
    | ok o =>
      rw [hsi] at h
      cases o with
      | none =>
        cases h
        cases hit
      | some it2 =>
        cases h
        rcases List.mem_singleton.mp hit with hit
        have hs := singleItem_some_sound cfg flds _ _ it2 hsi
        rw [hit]
        exact ⟨by rw [hs.1]; exact htc, hs.2⟩

/-- Every item one loop iteration emits satisfies the emission invariant. -/
theorem processEntry_out_sound (cfg : RssConfig) (flds : List (String × String))
    (lastId : Option String) (e e2 : RawEntry) (its : List OutputItem) (ign : Nat)
    (hhref : ∀ enc ∈ e.enclosures, enc.href ≠ some "")
    (htc : titleCleanOk cfg e = true)
    (hpe : processEntry cfg flds lastId e = .out e2 its ign) :
    ∀ it ∈ its, emittedOk it := by
  intro it hit
  unfold processEntry at hpe
  cases hgf : e.getField (entryTf cfg) with
  | none => rw [hgf] at hpe; cases hpe
  | some tv =>
    rw [hgf] at hpe
    simp only [] at hpe
    by_cases hpt : pyTruthy tv = true
    · rw [if_pos hpt] at hpe
      cases tv with
      | nonStr a b => cases hpe
      | str t =>
        simp only [] at hpe
        cases hg : guidOrEmpty (e.setField "title" (.str t)) with
        | error err => rw [hg] at hpe; cases hpe
        | ok g =>
          rw [hg] at hpe
          simp only [] at hpe
          by_cases hl : lastId = some (t ++ g)
          · rw [if_pos hl] at hpe; cases hpe
          · rw [if_neg hl] at hpe
            have htc2 : cleanTitle cfg t ≠ "" := by
              unfold titleCleanOk at htc
              rw [hgf] at htc
              simpa using htc
            have hhref2 : ∀ enc ∈ (e.setField "title" (.str t)).enclosures,
                enc.href ≠ some "" := by
              rw [setField_enclosures]
              exact hhref
            exact resolveEntry_out_sound cfg flds _ t e2 its ign hhref2 htc2 hpe it hit
    · rw [if_neg hpt] at hpe
      cases hpe

/-- Every item of a full scan satisfies the emission invariant. -/
theorem runLoop_items_sound (cfg : RssConfig) (flds : List (String × String))
    (lastId : Option String) :
    ∀ es : List RawEntry,
      (∀ e ∈ es, (∀ enc ∈ e.enclosures, enc.href ≠ some "") ∧
        titleCleanOk cfg e = true) →
      ∀ it ∈ (runLoop cfg flds lastId es).items, emittedOk it := by
  intro es
  induction es with
  | nil => intro _ it hit; cases hit
  | cons e rest ih =>
    intro hh it hit
    have hhd := hh e (by simp)
    have htl : ∀ x ∈ rest, (∀ enc ∈ x.enclosures, enc.href ≠ some "") ∧
        titleCleanOk cfg x = true := fun x hx => hh x (by simp [hx])
    cases hpe : processEntry cfg flds lastId e with
    | skip =>
      simp only [runLoop, hpe] at hit
      exact ih htl it hit
    | brk e2 =>
      simp only [runLoop, hpe] at hit
      cases hit
    | iErr e2 err =>
      simp only [runLoop, hpe] at hit
      cases hit
    | out e2 its2 ign =>
      simp only [runLoop, hpe] at hit
      rcases List.mem_append.mp hit with hit | hit
      · exact processEntry_out_sound cfg flds lastId e e2 its2 ign hhd.1 hhd.2 hpe it hit
      · exact ih htl it hit

/-- Membership is preserved by the descending insertion. -/
theorem mem_insertDesc (x a : RawEntry) (l : List RawEntry)
    (h : x ∈ insertDesc a l) : x = a ∨ x ∈ l := by
  induction l with
  | nil =>
    unfold insertDesc at h
    exact Or.inl (List.mem_singleton.mp h)
  | cons y ys ih =>
    unfold insertDesc at h
    split at h
    · rcases List.mem_cons.mp h with h | h
      · exact Or.inl h
      · exact Or.inr h
    · rcases List.mem_cons.mp h with h | h
      · exact Or.inr (by simp [h])
      · rcases ih h with h | h
        · exact Or.inl h
        · exact Or.inr (by simp [h])

/-- Membership is preserved by the descending sort. -/
theorem mem_sortDesc (x : RawEntry) (l : List RawEntry)
    (h : x ∈ sortDesc l) : x ∈ l := by
  induction l with
  | nil => cases h
  | cons a l ih =>
    unfold sortDesc at h
    simp only [List.foldr_cons] at h
    rcases mem_insertDesc x a _ h with h | h
    · simp [h]
    · exact List.mem_cons_of_mem _ (ih h)

/-- The sorting stage only reorders: every entry of its output was an entry
of the feed. -/
theorem sortStage_mem (entries es : List RawEntry)
    (h : sortStage entries = Except.ok es) : ∀ x ∈ es, x ∈ entries := by
  unfold sortStage at h
  repeat' split at h
  all_goals try (cases h)
  · intro x hx; cases hx
  · intro x hx; exact hx
  · intro x hx
    exact mem_sortDesc x _ hx
  · intro x hx; exact hx

/-- The classification never produces an item list as an early result. -/
theorem bozoClassify_not_items (feed : ParsedFeed) (r : RunResult)
    (h : (bozoClassify feed).2.1 = some r) :
    ∀ out, r ≠ RunResult.items out := by
  intro out hc
  unfold bozoClassify at h
  repeat' split at h
  all_goals cases h
  all_goals cases hc

/-- The bozo stage never produces an item list as an early result. -/
theorem bozoStage_inl_not_items (feed : ParsedFeed) (rd : RunResult × Nat)
    (h : bozoStage feed = Sum.inl rd) :
    ∀ out, rd.1 ≠ RunResult.items out := by
  intro out hc
  unfold bozoStage at h
  repeat' split at h
  all_goals cases h
  · exact bozoClassify_not_items feed _ (by assumption) out hc
  · cases hc

/-- An early fetch outcome carrying an item list is the 304 short-circuit,
whose list is empty. -/
theorem fetchStage_inl_items (cfg : RssConfig) (p : Persist) (w : FetchWorld)
    (o : Outcome) (hf : fetchStage cfg p w = Sum.inl o) (out : List OutputItem)
    (h : o.result = RunResult.items out) : out = [] := by
  unfold fetchStage at hf
  repeat' split at hf
  all_goals cases hf
  all_goals first
    | (cases h; rfl)
    | cases h

/-- The loop stage's item list is the loop's item list. -/
theorem loopStage_items_from_loop (cfg : RssConfig) (p1 : Persist)
    (lastId : Option String) (es : List RawEntry) (dumps : Nat)
    (out : List OutputItem)
    (h : (loopStage cfg p1 lastId es dumps).result = RunResult.items out) :
    out = (runLoop cfg (fieldsList cfg) lastId es).items := by
  unfold loopStage loopFinish at h
  repeat' split at h
  all_goals first
    | (cases h; rfl)
    | cases h

/-- The entry stage's item list comes from a scan over entries of the feed. -/
theorem entryStage_items_from_loop (cfg : RssConfig) (opts : TaskOpts)
    (p1 : Persist) (feed : ParsedFeed) (dumps : Nat) (out : List OutputItem)
    (h : (entryStage cfg opts p1 feed dumps).result = RunResult.items out) :
    ∃ lastId es, (∀ x ∈ es, x ∈ feed.entries) ∧
      out = (runLoop cfg (fieldsList cfg) lastId es).items := by
  unfold entryStage at h
  split at h
  · exact ⟨some "", feed.entries, fun x hx => hx,
      loopStage_items_from_loop cfg p1 (some "") feed.entries dumps out h⟩
  · split at h
    · cases h
    · rename_i es hes
      exact ⟨p1.lastEntry, es, sortStage_mem feed.entries es hes,
        loopStage_items_from_loop cfg p1 p1.lastEntry es dumps out h⟩

/-- Same property through the bozo classification. -/
theorem parseStage_items_from_loop (cfg : RssConfig) (opts : TaskOpts)
    (p1 : Persist) (feed : ParsedFeed) (dumps0 : Nat) (out : List OutputItem)
    (h : (parseStage cfg opts p1 feed dumps0).result = RunResult.items out) :
    ∃ lastId es, (∀ x ∈ es, x ∈ feed.entries) ∧
      out = (runLoop cfg (fieldsList cfg) lastId es).items := by
  unfold parseStage at h
  split at h
  · rename_i rd hrd
    exact absurd h (bozoStage_inl_not_items feed rd hrd out)
  · exact entryStage_items_from_loop cfg opts p1 feed _ out h

/-- Same property through the empty-body and LookupError checks. -/
theorem contentStage_items_from_loop (cfg : RssConfig) (opts : TaskOpts)
    (p1 : Persist) (content : String) (w : FetchWorld) (out : List OutputItem)
    (h : (contentStage cfg opts p1 content w).result = RunResult.items out) :
    ∃ lastId es, (∀ x ∈ es, x ∈ w.parsed.entries) ∧
      out = (runLoop cfg (fieldsList cfg) lastId es).items := by
  unfold contentStage at h
  split at h
  · cases h
  · split at h
    · cases h
    · exact parseStage_items_from_loop cfg opts p1 w.parsed 0 out h

/-- Every normally returned item list is either the 304 short-circuit's
empty list or the item list of a scan over (a reordering of) the parsed
feed's entries. -/
theorem runRss_items_from_loop (cfg : RssConfig) (opts : TaskOpts) (p : Persist)
    (w : FetchWorld) (out : List OutputItem)
    (h : (runRss cfg opts p w).result = RunResult.items out) :
    out = [] ∨ ∃ lastId es, (∀ x ∈ es, x ∈ w.parsed.entries) ∧
      out = (runLoop cfg (fieldsList cfg) lastId es).items := by
  unfold runRss at h
  cases hf : fetchStage cfg p w with
  | inl o =>
    rw [hf] at h
    exact Or.inl (fetchStage_inl_items cfg p w o hf out h)
  | inr cp =>
    rw [hf] at h
    exact Or.inr (contentStage_items_from_loop cfg opts cp.2 cp.1 w out h)

/-- Claim C3, amended: every emitted item has a present, truthy url and its
title is the cleaned title — so, provided no enclosure of the feed carries a
present-but-empty href string and the title cleanup never empties a title,
every emitted item has a non-empty title and a non-empty url. Without those
two provisos the invariant fails (see the counterexample): an empty-string
href fans out into an item with an empty url, and a title that cleanup
empties is emitted empty. Entries without the configured title field, and
entries without a resolved url in the single-item branch, still produce no
output item. -/
theorem C3_amended (cfg : RssConfig) (opts : TaskOpts) (p : Persist)
    (w : FetchWorld) (out : List OutputItem)
    (hhref : ∀ e ∈ w.parsed.entries, ∀ enc ∈ e.enclosures, enc.href ≠ some "")
    (htitle : ∀ e ∈ w.parsed.entries, titleCleanOk cfg e = true)
    (hres : (runRss cfg opts p w).result = RunResult.items out) :
    ∀ it ∈ out, emittedOk it := by
  intro it hit
  rcases runRss_items_from_loop cfg opts p w out hres with hout | ⟨lastId, es, hmem, hout⟩
  · rw [hout] at hit; cases hit
  · rw [hout] at hit
    exact runLoop_items_sound cfg (fieldsList cfg) lastId es
      (fun e he => ⟨hhref e (hmem e he), htitle e (hmem e he)⟩) it hit

/-- A clean entry for the amended-C3 witness: two enclosures with non-empty
hrefs and a title the cleanup keeps. -/
def c3aEntry : RawEntry :=
  ⟨[("title", .str "Ta")],
   [⟨some "http://a", none, none⟩, ⟨some "http://b", none, none⟩], none⟩

def c3aWorld : FetchWorld :=
  ⟨none, "data", false, ⟨none, some false, [c3aEntry]⟩⟩

def c3aItem1 : OutputItem := { title := "Ta", url := some (.str "http://a") }

def c3aItem2 : OutputItem := { title := "Ta", url := some (.str "http://b") }

/-- Witness for the amended C3 at a concrete two-enclosure feed. -/
theorem C3_amended_witness :
    ((∀ e ∈ c3aWorld.parsed.entries, ∀ enc ∈ e.enclosures, enc.href ≠ some "") ∧
     (∀ e ∈ c3aWorld.parsed.entries, titleCleanOk c3Cfg e = true) ∧
     (runRss c3Cfg plainOpts emptyPersist c3aWorld).result =
       RunResult.items [c3aItem1, c3aItem2]) ∧
    emittedOk c3aItem1 :=
  ⟨by decide,
   C3_amended c3Cfg plainOpts emptyPersist c3aWorld [c3aItem1, c3aItem2]
     (by decide) (by decide) (by decide) c3aItem1 (by decide)⟩
